import Mathlib

/-
Shallow embedding of the Relationship Synchronization Engine of the
github-account-tracker repository: the paginated collection loops and the
per-user endpoints of src/src/services/githubApi.ts, and the workflow
handlers of the Dashboard component (handleUnfollow, handleBulkUnfollow,
handleBulkUnstar, checkMutualFollows, getUserDetails).  Network calls are
modelled by explicit parameters: the remote collection is the full ordered
list it would serve, per-target destructive calls are an outcome oracle,
and the freshly fetched rate limit is passed in as a value.
-/

namespace Tracker

/-- Entity from the remote service (GitHubUser in src/src/types/github.ts):
identified by a login and a numeric id.  Display attributes are read-only
snapshots and play no role in the verified operations, so they are elided. -/
structure GitHubUser where
  login : String
  id : Nat
  deriving Repr, DecidableEq

/-- UserWithFollowStatus (src/src/types/github.ts): a following entry with
the two optional booleans isFollowingMe and isMutualFollow.  Option Bool
models the TypeScript optional boolean, none being the undefined,
unresolved state. -/
structure UserWithFollowStatus where
  login : String
  id : Nat
  isFollowingMe : Option Bool := none
  isMutualFollow : Option Bool := none
  deriving Repr, DecidableEq

/-- GitHubRepository (src/src/types/github.ts), reduced to the fields the
unstar workflow consults: the numeric id (the key of the unstarredRepos
set) and the owner login and name used to address the DELETE request. -/
structure GitHubRepository where
  id : Nat
  name : String
  ownerLogin : String
  deriving Repr, DecidableEq

/-- JavaScript truthiness of an optional boolean: undefined and false are
falsy, true is truthy.  The Dashboard code branches on the raw optional
field, e.g. following.filter(user => !user.isMutualFollow). -/
def truthy : Option Bool → Bool
  | some b => b
  | none => false

/-- Rate-limit snapshot: the rate object of GitHubRateLimit in
src/src/types/github.ts. -/
structure RateLimit where
  limit : Nat
  remaining : Nat
  reset : Nat
  used : Nat
  deriving Repr, DecidableEq

/-- chunkLoop size fuel l splits l into consecutive slices of length size,
mirroring the batch loops of the source, for (let i = 0; i < n; i += size)
with batch = slice(i, i + size).  The fuel argument bounds the number of
loop iterations; fuel l.length is always sufficient when 0 < size, since
every iteration consumes at least one element. -/
def chunkLoop {α : Type} (size : Nat) : Nat → List α → List (List α)
  | 0, _ => []
  | _ + 1, [] => []
  | fuel + 1, a :: l => ((a :: l).take size) :: chunkLoop size fuel ((a :: l).drop size)

/-- chunksOf size l: the consecutive batches of size elements the source
loops iterate over (the last batch may be shorter). -/
def chunksOf {α : Type} (size : Nat) (l : List α) : List (List α) :=
  chunkLoop size l.length l

/-- collectLoop is the body of the while(true) loops of getAllFollowing,
getAllFollowers and getAllStarredRepos (src/src/services/githubApi.ts,
lines 59-82, 88-111 and 165-187).  The remote collection is modelled as
the full ordered list it serves; the page requested at each iteration is
the next take perPage slice of the remaining suffix.  Each iteration
issues exactly one page request; the loop breaks on an empty page, and
breaks after appending a page shorter than perPage.  The fuel argument
bounds the iterations of the source while(true) loop; l.length + 1 is
always sufficient.  Returns the collected entities and the number of page
requests issued. -/
def collectLoop {α : Type} (perPage : Nat) : Nat → List α → List α × Nat
  | 0, _ => ([], 0)
  | fuel + 1, remaining =>
    let pg := remaining.take perPage
    if pg.length = 0 then ([], 1)
    else if pg.length < perPage then (pg, 1)
    else
      let rest := collectLoop perPage fuel (remaining.drop perPage)
      (pg ++ rest.1, rest.2 + 1)

/-- collectAllPages server perPage: the full collection loop run against a
remote collection of entities, with the fuel instantiated at a sufficient
bound. -/
def collectAllPages {α : Type} (server : List α) (perPage : Nat) : List α × Nat :=
  collectLoop perPage (server.length + 1) server

/-- getAllFollowing (src/src/services/githubApi.ts lines 59-82): collect
every following entry with perPage = 100, the maximum allowed page size. -/
def getAllFollowing (server : List GitHubUser) : List GitHubUser × Nat :=
  collectAllPages server 100

/-- getAllStarredRepos (src/src/services/githubApi.ts lines 165-187): the
same loop over starred repositories with perPage = 100. -/
def getAllStarredRepos (server : List GitHubRepository) : List GitHubRepository × Nat :=
  collectAllPages server 100

/-- HttpResponse: the fields of a fetch Response that makeRequest inspects
(ok flag, status, statusText and the decoded JSON body), together with the
rate-limit counters that the remote service attaches to every response as
headers.  The errMessage field models the message of a parsed error body;
none models a body that fails to parse, in which case makeRequest falls
back to the HTTP status line. -/
structure HttpResponse where
  ok : Bool
  status : Nat
  statusText : String
  body : String
  errMessage : Option String
  rateRemaining : Nat
  rateLimitTotal : Nat
  rateReset : Nat
  deriving Repr, DecidableEq

/-- makeRequest (src/src/services/githubApi.ts lines 14-31): on a 2xx
response returns the decoded body; otherwise throws an Error carrying the
parsed message, or the HTTP status line when the error body does not
parse.  The rate-limit counters carried by the response are not consulted
on either path. -/
def makeRequest (resp : HttpResponse) : Except String String :=
  if resp.ok then Except.ok resp.body
  else
    Except.error
      (match resp.errMessage with
       | some m => m
       | none => "HTTP " ++ toString resp.status ++ ": " ++ resp.statusText)

/-- CacheEntry: one value of the userDetailCache map
(src/src/services/githubApi.ts line 7): the cached user together with the
Date.now() timestamp recorded when it was stored. -/
structure CacheEntry where
  user : GitHubUser
  timestamp : Int
  deriving Repr, DecidableEq

/-- CACHE_DURATION (src/src/services/githubApi.ts line 8): five minutes in
milliseconds. -/
def CACHE_DURATION : Int := 5 * 60 * 1000

/-- getUserDetails (src/src/services/githubApi.ts lines 37-53) for one
username: cached is the cache entry currently stored for that username,
now is Date.now(), and fetchResult is what the remote request would
produce if issued.  Returns the value handed to the caller, whether a
remote request was issued, and the cache entry for the username
afterwards.  The catch branch converts every fetch failure into null. -/
def getUserDetails (cached : Option CacheEntry) (now : Int)
    (fetchResult : Except String GitHubUser) :
    Option GitHubUser × Bool × Option CacheEntry :=
  match cached with
  | some c =>
    if now - c.timestamp < CACHE_DURATION then
      (some c.user, false, some c)
    else
      match fetchResult with
      | Except.ok u => (some u, true, some { user := u, timestamp := now })
      | Except.error _ => (none, true, some c)
  | none =>
    match fetchResult with
    | Except.ok u => (some u, true, some { user := u, timestamp := now })
    | Except.error _ => (none, true, none)

/-- FetchOutcome: result of the raw fetch inside checkIfIAmFollowedBy,
either a response carrying an HTTP status code or a thrown network
error. -/
inductive FetchOutcome
  | status (code : Nat)
  | networkError
  deriving Repr, DecidableEq

/-- checkIfIAmFollowedBy (src/src/services/githubApi.ts lines 127-141):
true exactly when the response status is 204.  Every other status, the 404
encoding absence of the relationship but also 401, 403, 500 and so on,
yields false, and a thrown fetch error is caught and yields false as
well. -/
def checkIfIAmFollowedBy (r : FetchOutcome) : Bool :=
  match r with
  | FetchOutcome.status code => code == 204
  | FetchOutcome.networkError => false

/-- nonMutualUsers: the eligible-target filter of handleBulkUnfollow
(Dashboard component, line 313): following.filter(user =>
!user.isMutualFollow).  JavaScript negation makes both false and undefined
pass the filter. -/
def nonMutualUsers (following : List UserWithFollowStatus) : List UserWithFollowStatus :=
  following.filter (fun u => !(truthy u.isMutualFollow))

/-- Re-annotation of one following entry inside checkMutualFollows
(Dashboard component, lines 144-152): both isFollowingMe and isMutualFollow
are set to the probe answer. -/
def annotateUser (probe : String → FetchOutcome) (u : UserWithFollowStatus) :
    UserWithFollowStatus :=
  let isFollowingMe := checkIfIAmFollowedBy (probe u.login)
  { u with isFollowingMe := some isFollowingMe, isMutualFollow := some isFollowingMe }

/-- Result of checkMutualFollows: the logins probed (in probe order), the
following list afterwards, and the error surfaced, if any. -/
structure MutualCheckResult where
  probed : List String
  finalFollowing : List UserWithFollowStatus
  errorMsg : Option String
  deriving Repr, DecidableEq

/-- checkMutualFollows (Dashboard component, lines 120-172): returns
immediately on an empty list; denies and leaves the list untouched when
the freshly fetched remaining quota is below following.length + 50 (line
131); otherwise probes every entry in rounds of 10 (with a 100ms pause
between rounds, which has no functional effect and is recorded by the
round structure) and replaces the list with the re-annotated entries.  The
probe never throws, since checkIfIAmFollowedBy catches internally, so the
catch branch at lines 153-156 is unreachable and every entry is
re-annotated. -/
def checkMutualFollows (following : List UserWithFollowStatus) (rate : RateLimit)
    (probe : String → FetchOutcome) : MutualCheckResult :=
  if following.length = 0 then
    { probed := [], finalFollowing := following, errorMsg := none }
  else if rate.remaining < following.length + 50 then
    { probed := [], finalFollowing := following,
      errorMsg := some "Insufficient API calls remaining to check mutual follows." }
  else
    let batches := chunksOf 10 following
    { probed := (batches.map (fun b => b.map (fun u => u.login))).flatten,
      finalFollowing := (batches.map (fun b => b.map (annotateUser probe))).flatten,
      errorMsg := none }

/-- ExecState: the state mutated by the bulk loops of handleBulkUnfollow
and handleBulkUnstar (Dashboard component, lines 341-364 and 436-459).
requests lists the keys for which a destructive DELETE was issued, in
submission order; succeeded is the Set of keys whose call succeeded
(unfollowedUsers, respectively unstarredRepos); count is the success
counter (unfollowedCount, respectively unstarredCount); progressCalls
lists every progress callback made inside the loop.  The key type is
String logins for unfollow and Nat repository ids for unstar. -/
structure ExecState (κ : Type) where
  requests : List κ
  succeeded : List κ
  count : Nat
  progressCalls : List (Nat × Nat)
  deriving Repr, DecidableEq

/-- Effect of one member of a batch (the async closure mapped over the
batch, Dashboard component lines 348-357 and 443-452): the destructive
call is issued for the key; on success the key is added to the succeeded
Set, the counter is bumped and progress (count, total) is reported; on
failure the error is only logged to the console and nothing is recorded.
The single-threaded interleaving of the concurrent closures is serialised
in submission order; the succeeded set, the counter and each recorded
total are independent of the interleaving. -/
def execTarget {κ : Type} [DecidableEq κ] (ok : κ → Bool) (total : Nat)
    (st : ExecState κ) (k : κ) : ExecState κ :=
  let st1 : ExecState κ := { st with requests := st.requests ++ [k] }
  if ok k then
    { st1 with
      succeeded := st1.succeeded.insert k,
      count := st1.count + 1,
      progressCalls := st1.progressCalls ++ [(st1.count + 1, total)] }
  else st1

/-- execBatches: the outer for loop over the fixed-size batches, waiting
for every member of a batch before starting the next one (Promise.all). -/
def execBatches {κ : Type} [DecidableEq κ] (ok : κ → Bool) (total : Nat)
    (batches : List (List κ)) (st : ExecState κ) : ExecState κ :=
  batches.foldl (fun st b => b.foldl (execTarget ok total) st) st

/-- Result of handleBulkUnfollow: the destructive requests issued, the
succeeded Set and counter, every progress call made during the run (the
initial (0, total) call at line 328 followed by the per-success calls; the
finally block additionally resets the progress display to (0, 0), which is
not part of the run sequence), the following list afterwards, and the
error surfaced, if any. -/
structure BulkUnfollowResult where
  requests : List String
  unfollowedUsers : List String
  unfollowedCount : Nat
  progressCalls : List (Nat × Nat)
  finalFollowing : List UserWithFollowStatus
  errorMsg : Option String
  deriving Repr, DecidableEq

/-- handleBulkUnfollow (Dashboard component, lines 312-379).  confirmed is
the answer to the window.confirm prompt, rate the freshly fetched
rate-limit snapshot, and ok tells whether the DELETE for a given login
succeeds.  Eligible targets are following.filter(user =>
!user.isMutualFollow); on an empty eligible set or a declined prompt
nothing happens; when the remaining quota is below eligible + 10 the
whole operation throws with zero destructive requests issued; otherwise
the eligible logins are processed in batches of 5 and the users whose
DELETE succeeded are removed from the following list. -/
def handleBulkUnfollow (following : List UserWithFollowStatus) (confirmed : Bool)
    (rate : RateLimit) (ok : String → Bool) : BulkUnfollowResult :=
  let nonMutual := nonMutualUsers following
  if nonMutual.length = 0 then
    { requests := [], unfollowedUsers := [], unfollowedCount := 0,
      progressCalls := [], finalFollowing := following, errorMsg := none }
  else if !confirmed then
    { requests := [], unfollowedUsers := [], unfollowedCount := 0,
      progressCalls := [], finalFollowing := following, errorMsg := none }
  else if rate.remaining < nonMutual.length + 10 then
    { requests := [], unfollowedUsers := [], unfollowedCount := 0,
      progressCalls := [(0, nonMutual.length)], finalFollowing := following,
      errorMsg := some "Insufficient API calls remaining to unfollow users." }
  else
    let total := nonMutual.length
    let st := execBatches ok total (chunksOf 5 (nonMutual.map (fun u => u.login)))
      { requests := [], succeeded := [], count := 0, progressCalls := [] }
    { requests := st.requests, unfollowedUsers := st.succeeded,
      unfollowedCount := st.count,
      progressCalls := (0, total) :: st.progressCalls,
      finalFollowing := following.filter (fun u => !(st.succeeded.contains u.login)),
      errorMsg := none }

/-- Result of handleBulkUnstar, with repository ids as keys; fields mirror
BulkUnfollowResult. -/
structure BulkUnstarResult where
  requests : List Nat
  unstarredRepos : List Nat
  unstarredCount : Nat
  progressCalls : List (Nat × Nat)
  finalStarred : List GitHubRepository
  errorMsg : Option String
  deriving Repr, DecidableEq

/-- handleBulkUnstar (Dashboard component, lines 409-474): same shape as
handleBulkUnfollow with every starred repository a target, the DELETE
addressed by owner login and name, and reconciliation keyed by the
repository id (the unstarredRepos Set holds ids); the outcome oracle is
keyed by the id, which identifies the repository. -/
def handleBulkUnstar (starredRepos : List GitHubRepository) (confirmed : Bool)
    (rate : RateLimit) (ok : Nat → Bool) : BulkUnstarResult :=
  if starredRepos.length = 0 then
    { requests := [], unstarredRepos := [], unstarredCount := 0,
      progressCalls := [], finalStarred := starredRepos, errorMsg := none }
  else if !confirmed then
    { requests := [], unstarredRepos := [], unstarredCount := 0,
      progressCalls := [], finalStarred := starredRepos, errorMsg := none }
  else if rate.remaining < starredRepos.length + 10 then
    { requests := [], unstarredRepos := [], unstarredCount := 0,
      progressCalls := [(0, starredRepos.length)], finalStarred := starredRepos,
      errorMsg := some "Insufficient API calls remaining to unstar repositories." }
  else
    let total := starredRepos.length
    let st := execBatches ok total (chunksOf 5 (starredRepos.map (fun r => r.id)))
      { requests := [], succeeded := [], count := 0, progressCalls := [] }
    { requests := st.requests, unstarredRepos := st.succeeded,
      unstarredCount := st.count,
      progressCalls := (0, total) :: st.progressCalls,
      finalStarred := starredRepos.filter (fun r => !(st.succeeded.contains r.id)),
      errorMsg := none }

/-- Result of the single-target handleUnfollow. -/
structure UnfollowResult where
  finalFollowing : List UserWithFollowStatus
  deleteAttempted : Bool
  errorMsg : Option String
  deriving Repr, DecidableEq

/-- handleUnfollow (Dashboard component, lines 279-310): refuses mutual
follows outright; then checks the freshly fetched quota and throws below a
remaining of 10 before issuing anything; then issues the DELETE, and only
when it succeeds removes the user from the following list.  Every failure
is caught and leaves the list untouched. -/
def handleUnfollow (following : List UserWithFollowStatus)
    (user : UserWithFollowStatus) (rate : RateLimit) (deleteOk : Bool) :
    UnfollowResult :=
  if truthy user.isMutualFollow then
    { finalFollowing := following, deleteAttempted := false, errorMsg := none }
  else if rate.remaining < 10 then
    { finalFollowing := following, deleteAttempted := false,
      errorMsg := some "Insufficient API calls remaining. Please wait for rate limit reset." }
  else if deleteOk then
    { finalFollowing := following.filter (fun u => u.login != user.login),
      deleteAttempted := true, errorMsg := none }
  else
    { finalFollowing := following, deleteAttempted := true,
      errorMsg := some "Unfollow request failed." }

/-- ExecEvent: one observable step of the Running phase of a bulk job,
either the concurrent burst of destructive calls for one whole batch, or
the deliberate pause between batches. -/
inductive ExecEvent (κ : Type)
  | batchCall (keys : List κ)
  | interBatchDelay (ms : Nat)
  deriving Repr, DecidableEq

/-- batchEvents: the event sequence of the batch loop (Dashboard
component, lines 344-364): each batch is one concurrent Promise.all burst,
and the 200ms pause runs exactly when i + batchSize < n, that is, exactly
when further batches remain after the current one. -/
def batchEvents {κ : Type} : List (List κ) → List (ExecEvent κ)
  | [] => []
  | [b] => [ExecEvent.batchCall b]
  | b :: b2 :: rest =>
    ExecEvent.batchCall b :: ExecEvent.interBatchDelay 200 :: batchEvents (b2 :: rest)

/-- bulkUnfollowTrace: the Running-phase event trace of handleBulkUnfollow
over its eligible logins, with the source batch size of 5. -/
def bulkUnfollowTrace (targets : List String) : List (ExecEvent String) :=
  batchEvents (chunksOf 5 targets)

/-- bulkUnstarTrace: the Running-phase event trace of handleBulkUnstar
over the starred repository ids, with the source batch size of 5. -/
def bulkUnstarTrace (targets : List Nat) : List (ExecEvent Nat) :=
  batchEvents (chunksOf 5 targets)

theorem chunkLoop_nil {α : Type} (size fuel : Nat) :
    chunkLoop (α := α) size fuel [] = [] := by
  cases fuel <;> rfl

theorem chunkLoop_flatten {α : Type} (size : Nat) (hS : 0 < size) :
    ∀ (fuel : Nat) (l : List α), l.length ≤ fuel →
      (chunkLoop size fuel l).flatten = l := by
  intro fuel
  induction fuel with
  | zero =>
    intro l hl
    have : l = [] := List.length_eq_zero.mp (Nat.le_zero.mp hl)
    subst this
    rfl
  | succ n ih =>
    intro l hl
    cases l with
    | nil => rfl
    | cons a t =>
      have hlen : ((a :: t).drop size).length ≤ n := by
        simp only [List.length_drop, List.length_cons]
        simp only [List.length_cons] at hl
        omega
      simp only [chunkLoop, List.flatten_cons, ih _ hlen]
      exact List.take_append_drop size (a :: t)

theorem chunksOf_flatten {α : Type} (size : Nat) (hS : 0 < size) (l : List α) :
    (chunksOf size l).flatten = l :=
  chunkLoop_flatten size hS l.length l (Nat.le_refl _)

theorem chunkLoop_mem_length {α : Type} (size : Nat) (hS : 0 < size) :
    ∀ (fuel : Nat) (l : List α), l.length ≤ fuel →
      ∀ c ∈ chunkLoop size fuel l, 0 < c.length ∧ c.length ≤ size := by
  intro fuel
  induction fuel with
  | zero => intro l _ c hc; simp [chunkLoop] at hc
  | succ n ih =>
    intro l hl c hc
    cases l with
    | nil => simp [chunkLoop] at hc
    | cons a t =>
      simp only [chunkLoop, List.mem_cons] at hc
      rcases hc with hc | hc
      · subst hc
        constructor
        · simp only [List.length_take, List.length_cons]
          omega
        · simp only [List.length_take]
          omega
      · have hlen : ((a :: t).drop size).length ≤ n := by
          simp only [List.length_drop, List.length_cons]
          simp only [List.length_cons] at hl
          omega
        exact ih _ hlen c hc

theorem chunksOf_mem_length {α : Type} (size : Nat) (hS : 0 < size) (l : List α) :
    ∀ c ∈ chunksOf size l, 0 < c.length ∧ c.length ≤ size :=
  chunkLoop_mem_length size hS l.length l (Nat.le_refl _)

theorem chunkLoop_dropLast_length {α : Type} (size : Nat) (hS : 0 < size) :
    ∀ (fuel : Nat) (l : List α), l.length ≤ fuel →
      ∀ c ∈ (chunkLoop size fuel l).dropLast, c.length = size := by
  intro fuel
  induction fuel with
  | zero => intro l _ c hc; simp [chunkLoop] at hc
  | succ n ih =>
    intro l hl c hc
    cases l with
    | nil => simp [chunkLoop] at hc
    | cons a t =>
      simp only [chunkLoop] at hc
      rcases hrest : chunkLoop size n ((a :: t).drop size) with _ | ⟨r, rs⟩
      · rw [hrest] at hc
        simp at hc
      · rw [hrest] at hc
        rw [List.dropLast_cons_of_ne_nil (by simp)] at hc
        have hlen : ((a :: t).drop size).length ≤ n := by
          simp only [List.length_drop, List.length_cons]
          simp only [List.length_cons] at hl
          omega
        simp only [List.mem_cons] at hc
        rcases hc with hc | hc
        · subst hc
          have hne : (a :: t).drop size ≠ [] := by
            intro hnil
            rw [hnil, chunkLoop_nil] at hrest
            exact List.noConfusion hrest
          have hlt : size < (a :: t).length := by
            by_contra hge
            push_neg at hge
            exact hne (List.drop_eq_nil_of_le hge)
          simp only [List.length_take]
          omega
        · have := ih _ hlen c
          rw [hrest] at this
          exact this hc

theorem chunksOf_dropLast_length {α : Type} (size : Nat) (hS : 0 < size) (l : List α) :
    ∀ c ∈ (chunksOf size l).dropLast, c.length = size :=
  chunkLoop_dropLast_length size hS l.length l (Nat.le_refl _)

theorem collectLoop_fst {α : Type} (perPage : Nat) (hP : 0 < perPage) :
    ∀ (fuel : Nat) (l : List α), l.length < fuel →
      (collectLoop perPage fuel l).1 = l := by
  intro fuel
  induction fuel with
  | zero => intro l hl; omega
  | succ n ih =>
    intro l hl
    simp only [collectLoop, List.length_take]
    by_cases h0 : min perPage l.length = 0
    · have : l.length = 0 := by omega
      have hnil : l = [] := List.length_eq_zero.mp this
      subst hnil
      simp
    · by_cases hlt : min perPage l.length < perPage
      · have hll : l.length < perPage := by omega
        simp only [if_neg h0, if_pos hlt]
        exact List.take_of_length_le (Nat.le_of_lt hll)
      · have hge : perPage ≤ l.length := by omega
        simp only [if_neg h0, if_neg hlt]
        have hrec : ((l.drop perPage).length) < n := by
          simp only [List.length_drop]
          omega
        rw [ih _ hrec]
        exact List.take_append_drop perPage l

theorem collectLoop_snd {α : Type} (perPage : Nat) (hP : 0 < perPage) :
    ∀ (fuel : Nat) (l : List α), l.length < fuel →
      (collectLoop perPage fuel l).2 = l.length / perPage + 1 := by
  intro fuel
  induction fuel with
  | zero => intro l hl; omega
  | succ n ih =>
    intro l hl
    simp only [collectLoop, List.length_take]
    by_cases h0 : min perPage l.length = 0
    · have hlen : l.length = 0 := by omega
      simp [h0, hlen]
    · by_cases hlt : min perPage l.length < perPage
      · have hll : l.length < perPage := by omega
        simp only [if_neg h0, if_pos hlt]
        rw [Nat.div_eq_of_lt hll]
      · have hge : perPage ≤ l.length := by
          omega
        simp only [if_neg h0, if_neg hlt]
        have hrec : ((l.drop perPage).length) < n := by
          simp only [List.length_drop]
          omega
        rw [ih _ hrec]
        simp only [List.length_drop]
        rw [Nat.div_eq_sub_div hP hge]

theorem chunksOf_map_flatten {α β : Type} (size : Nat) (hS : 0 < size)
    (f : α → β) (l : List α) :
    ((chunksOf size l).map (fun b => b.map f)).flatten = l.map f := by
  rw [← List.map_flatten, chunksOf_flatten size hS]

theorem checkMutualFollows_finalFollowing (following : List UserWithFollowStatus)
    (rate : RateLimit) (probe : String → FetchOutcome)
    (hne : following.length ≠ 0)
    (hq : following.length + 50 ≤ rate.remaining) :
    (checkMutualFollows following rate probe).finalFollowing
      = following.map (annotateUser probe) := by
  unfold checkMutualFollows
  rw [if_neg hne, if_neg (by omega)]
  exact chunksOf_map_flatten 10 (by omega) _ following

theorem foldl_execTarget_requests {κ : Type} [DecidableEq κ] (ok : κ → Bool)
    (total : Nat) :
    ∀ (b : List κ) (st : ExecState κ),
      (b.foldl (execTarget ok total) st).requests = st.requests ++ b := by
  intro b
  induction b with
  | nil => intro st; simp
  | cons a t ih =>
    intro st
    simp only [List.foldl_cons, ih]
    by_cases h : ok a <;> simp [execTarget, h]

theorem foldl_execTarget_count {κ : Type} [DecidableEq κ] (ok : κ → Bool)
    (total : Nat) :
    ∀ (b : List κ) (st : ExecState κ),
      (b.foldl (execTarget ok total) st).count = st.count + (b.filter ok).length := by
  intro b
  induction b with
  | nil => intro st; simp
  | cons a t ih =>
    intro st
    simp only [List.foldl_cons, ih, List.filter_cons]
    by_cases h : ok a
    · simp [execTarget, h]
      omega
    · simp [execTarget, h]

theorem foldl_execTarget_succeeded {κ : Type} [DecidableEq κ] (ok : κ → Bool)
    (total : Nat) :
    ∀ (b : List κ) (st : ExecState κ) (x : κ),
      (x ∈ (b.foldl (execTarget ok total) st).succeeded ↔
        x ∈ st.succeeded ∨ (x ∈ b ∧ ok x = true)) := by
  intro b
  induction b with
  | nil => intro st x; simp
  | cons a t ih =>
    intro st x
    simp only [List.foldl_cons, ih, List.mem_cons]
    by_cases h : ok a
    · simp only [execTarget, if_pos h, List.mem_insert_iff]
      constructor
      · rintro ((rfl | hx) | hx)
        · exact Or.inr ⟨Or.inl rfl, h⟩
        · exact Or.inl hx
        · exact Or.inr ⟨Or.inr hx.1, hx.2⟩
      · rintro (hx | ⟨rfl | hx, hok⟩)
        · exact Or.inl (Or.inr hx)
        · exact Or.inl (Or.inl rfl)
        · exact Or.inr ⟨hx, hok⟩
    · simp only [execTarget, if_neg h]
      constructor
      · rintro (hx | hx)
        · exact Or.inl hx
        · exact Or.inr ⟨Or.inr hx.1, hx.2⟩
      · rintro (hx | ⟨rfl | hx, hok⟩)
        · exact Or.inl hx
        · exact absurd hok h
        · exact Or.inr ⟨hx, hok⟩

theorem foldl_execTarget_progress {κ : Type} [DecidableEq κ] (ok : κ → Bool)
    (total : Nat) :
    ∀ (b : List κ) (st : ExecState κ),
      (st.progressCalls.getLast? = some (st.count, total) ∨
        (st.progressCalls = [] ∧ st.count = 0)) →
      ((b.foldl (execTarget ok total) st).progressCalls.getLast?
          = some ((b.foldl (execTarget ok total) st).count, total) ∨
        ((b.foldl (execTarget ok total) st).progressCalls = [] ∧
          (b.foldl (execTarget ok total) st).count = 0)) := by
  intro b
  induction b with
  | nil => intro st h; exact h
  | cons a t ih =>
    intro st h
    simp only [List.foldl_cons]
    apply ih
    by_cases hok : ok a
    · simp only [execTarget, if_pos hok]
      exact Or.inl (List.getLast?_concat _)
    · simp only [execTarget, if_neg hok]
      exact h

theorem execBatches_requests {κ : Type} [DecidableEq κ] (ok : κ → Bool)
    (total : Nat) :
    ∀ (batches : List (List κ)) (st : ExecState κ),
      (execBatches ok total batches st).requests = st.requests ++ batches.flatten := by
  intro batches
  induction batches with
  | nil => intro st; simp [execBatches]
  | cons b bs ih =>
    intro st
    simp only [execBatches, List.foldl_cons] at ih ⊢
    rw [ih, foldl_execTarget_requests, List.flatten_cons, List.append_assoc]

theorem execBatches_count {κ : Type} [DecidableEq κ] (ok : κ → Bool)
    (total : Nat) :
    ∀ (batches : List (List κ)) (st : ExecState κ),
      (execBatches ok total batches st).count
        = st.count + (batches.flatten.filter ok).length := by
  intro batches
  induction batches with
  | nil => intro st; simp [execBatches]
  | cons b bs ih =>
    intro st
    simp only [execBatches, List.foldl_cons] at ih ⊢
    rw [ih, foldl_execTarget_count, List.flatten_cons, List.filter_append,
      List.length_append]
    omega

theorem execBatches_succeeded {κ : Type} [DecidableEq κ] (ok : κ → Bool)
    (total : Nat) :
    ∀ (batches : List (List κ)) (st : ExecState κ) (x : κ),
      (x ∈ (execBatches ok total batches st).succeeded ↔
        x ∈ st.succeeded ∨ (x ∈ batches.flatten ∧ ok x = true)) := by
  intro batches
  induction batches with
  | nil => intro st x; simp [execBatches]
  | cons b bs ih =>
    intro st x
    simp only [execBatches, List.foldl_cons] at ih ⊢
    rw [ih, foldl_execTarget_succeeded, List.flatten_cons]
    simp only [List.mem_append]
    tauto

theorem execBatches_progress {κ : Type} [DecidableEq κ] (ok : κ → Bool)
    (total : Nat) :
    ∀ (batches : List (List κ)) (st : ExecState κ),
      (st.progressCalls.getLast? = some (st.count, total) ∨
        (st.progressCalls = [] ∧ st.count = 0)) →
      ((execBatches ok total batches st).progressCalls.getLast?
          = some ((execBatches ok total batches st).count, total) ∨
        ((execBatches ok total batches st).progressCalls = [] ∧
          (execBatches ok total batches st).count = 0)) := by
  intro batches
  induction batches with
  | nil => intro st h; exact h
  | cons b bs ih =>
    intro st h
    simp only [execBatches, List.foldl_cons] at ih ⊢
    exact ih _ (foldl_execTarget_progress ok total b st h)

/-- C5 (amended): for every collection of N entities fetched with page
size 100, the paginated collector returns all N entities in page order,
starting at page 1 and stopping on the first page that is empty or
shorter than the requested size, and issues N / 100 + 1 page requests.
This equals ceil(N/100) whenever N is not a multiple of 100; when 100
divides N (including N = 0) one additional trailing request is issued to
discover the end of the collection. -/
theorem C5_paged_collection :
    ∀ (users : List GitHubUser) (repos : List GitHubRepository),
      (getAllFollowing users).1 = users ∧
      (getAllFollowing users).2 = users.length / 100 + 1 ∧
      (getAllStarredRepos repos).1 = repos ∧
      (getAllStarredRepos repos).2 = repos.length / 100 + 1 := by
  intro users repos
  exact ⟨collectLoop_fst 100 (by omega) _ _ (Nat.lt_succ_self _),
    collectLoop_snd 100 (by omega) _ _ (Nat.lt_succ_self _),
    collectLoop_fst 100 (by omega) _ _ (Nat.lt_succ_self _),
    collectLoop_snd 100 (by omega) _ _ (Nat.lt_succ_self _)⟩

/-- C5 counterexample: a collection of exactly N = 100 entities with page
size P = 100 is fetched with two page requests, not ceil(N/P) = 1: after
the full first page the loop issues one more request to discover the
end. -/
theorem C5_counterexample :
    ¬ ((getAllFollowing (List.replicate 100 { login := "a", id := 0 })).2
        = (100 + 100 - 1) / 100) := by
  decide

/-- C7 counterexample: the claim that every call into the remote client
returns the current QuotaState out of band fails: makeRequest discards the
rate-limit counters of the response on both the success and the error
path, so no function can recover the remaining quota from what a call
returns; two responses differing only in their rate-limit counters yield
identical call results. -/
theorem C7_counterexample :
    ¬ ∃ f : Except String String → Nat,
        ∀ resp : HttpResponse, f (makeRequest resp) = resp.rateRemaining := by
  rintro ⟨f, hf⟩
  have h1 := hf
    { ok := true, status := 200, statusText := "OK", body := "b",
      errMessage := none, rateRemaining := 0, rateLimitTotal := 0, rateReset := 0 }
  have h2 := hf
    { ok := true, status := 200, statusText := "OK", body := "b",
      errMessage := none, rateRemaining := 1, rateLimitTotal := 0, rateReset := 0 }
  simp only [makeRequest, if_pos rfl] at h1 h2
  omega

/-- C7 (amended): calls into the remote client do not surface quota state
at all: the result of makeRequest is fully determined by the ok flag, the
status, the status text, the decoded body and the parsed error message of
the response, the rate-limit counters being discarded.  The quota view is
refreshed only by an explicit dedicated rate-limit request, which each
quota-sensitive workflow issues before its admission decision. -/
theorem C7_amended (r1 r2 : HttpResponse) (hok : r1.ok = r2.ok)
    (hst : r1.status = r2.status) (htxt : r1.statusText = r2.statusText)
    (hb : r1.body = r2.body) (he : r1.errMessage = r2.errMessage) :
    makeRequest r1 = makeRequest r2 := by
  simp only [makeRequest, hok, hst, htxt, hb, he]

/-- C7 witness. -/
theorem C7_witness :
    makeRequest
        { ok := false, status := 404, statusText := "Not Found", body := "",
          errMessage := none, rateRemaining := 7, rateLimitTotal := 60,
          rateReset := 1 }
      = makeRequest
        { ok := false, status := 404, statusText := "Not Found", body := "",
          errMessage := none, rateRemaining := 0, rateLimitTotal := 5000,
          rateReset := 9 } :=
  C7_amended _ _ rfl rfl rfl rfl rfl

/-- C9: the per-entity detail lookup is total (it yields null, never an
exception): whenever the cache holds an entry younger than CACHE_DURATION
it is returned with no remote request issued, and whenever a fetch is
issued (that is, there is no fresh cached entry) and it errors, the caller
receives none. -/
theorem C9_getUserDetails (cached : Option CacheEntry) (now : Int)
    (fr : Except String GitHubUser) :
    (∀ c, cached = some c → now - c.timestamp < CACHE_DURATION →
      getUserDetails cached now fr = (some c.user, false, some c))
    ∧ (∀ e, fr = Except.error e →
        (∀ c, cached = some c → CACHE_DURATION ≤ now - c.timestamp) →
        (getUserDetails cached now fr).1 = none ∧
          (getUserDetails cached now fr).2.1 = true) := by
  constructor
  · rintro c rfl hfresh
    simp only [getUserDetails]
    rw [if_pos hfresh]
  · rintro e rfl hstale
    cases cached with
    | none => simp [getUserDetails]
    | some c =>
      have hc := hstale c rfl
      simp only [getUserDetails]
      rw [if_neg (by omega)]
      exact ⟨rfl, rfl⟩

/-- C9 witness. -/
theorem C9_witness :
    getUserDetails (some { user := { login := "a", id := 1 }, timestamp := 0 })
        100 (Except.error "boom")
      = (some { login := "a", id := 1 }, false,
          some { user := { login := "a", id := 1 }, timestamp := 0 }) :=
  (C9_getUserDetails _ 100 _).1 _ rfl (by decide)

/-- C10: the single-target unfollow is atomic with respect to the local
following list: when the quota pre-check fails (remaining below 10) or the
remote DELETE fails, the list is unchanged; and the only way the list
changes is that quota was available, the DELETE was issued and succeeded,
and then exactly the entries carrying the target login are removed. -/
theorem C10_unfollow_atomic (following : List UserWithFollowStatus)
    (user : UserWithFollowStatus) (rate : RateLimit) (deleteOk : Bool) :
    ((rate.remaining < 10 ∨ deleteOk = false) →
      (handleUnfollow following user rate deleteOk).finalFollowing = following)
    ∧ ((handleUnfollow following user rate deleteOk).finalFollowing ≠ following →
        10 ≤ rate.remaining ∧ deleteOk = true ∧
        (handleUnfollow following user rate deleteOk).deleteAttempted = true ∧
        (handleUnfollow following user rate deleteOk).finalFollowing
          = following.filter (fun u => u.login != user.login)) := by
  unfold handleUnfollow
  by_cases hm : truthy user.isMutualFollow
  · simp [hm]
  · by_cases hq : rate.remaining < 10
    · simp [hm, hq]
    · by_cases hd : deleteOk
      · simp only [hm, hq, hd]
        simp
        omega
      · simp [hm, hq, hd]

/-- C10 witness. -/
theorem C10_witness :
    (handleUnfollow [{ login := "a", id := 1, isMutualFollow := some false }]
        { login := "a", id := 1, isMutualFollow := some false }
        { limit := 5000, remaining := 9, reset := 0, used := 0 }
        true).finalFollowing
      = [{ login := "a", id := 1, isMutualFollow := some false }] :=
  (C10_unfollow_atomic _ _ _ _).1 (Or.inl (by decide))

theorem handleBulkUnfollow_run_requests (following : List UserWithFollowStatus)
    (rate : RateLimit) (ok : String → Bool)
    (hne : (nonMutualUsers following).length ≠ 0)
    (hq : (nonMutualUsers following).length + 10 ≤ rate.remaining) :
    (handleBulkUnfollow following true rate ok).requests
      = (nonMutualUsers following).map (fun u => u.login) := by
  simp only [handleBulkUnfollow]
  rw [if_neg hne, if_neg (by simp), if_neg (by omega)]
  rw [execBatches_requests, List.nil_append, chunksOf_flatten 5 (by omega)]

theorem handleBulkUnfollow_count_eq (following : List UserWithFollowStatus)
    (rate : RateLimit) (ok : String → Bool)
    (hne : (nonMutualUsers following).length ≠ 0)
    (hq : (nonMutualUsers following).length + 10 ≤ rate.remaining) :
    (handleBulkUnfollow following true rate ok).unfollowedCount
      = (((nonMutualUsers following).map (fun u => u.login)).filter ok).length := by
  simp only [handleBulkUnfollow]
  rw [if_neg hne, if_neg (by simp), if_neg (by omega)]
  rw [execBatches_count, chunksOf_flatten 5 (by omega), Nat.zero_add]

theorem handleBulkUnfollow_succeeded_mem (following : List UserWithFollowStatus)
    (rate : RateLimit) (ok : String → Bool)
    (hne : (nonMutualUsers following).length ≠ 0)
    (hq : (nonMutualUsers following).length + 10 ≤ rate.remaining) (x : String) :
    (x ∈ (handleBulkUnfollow following true rate ok).unfollowedUsers ↔
      x ∈ (nonMutualUsers following).map (fun u => u.login) ∧ ok x = true) := by
  simp only [handleBulkUnfollow]
  rw [if_neg hne, if_neg (by simp), if_neg (by omega)]
  dsimp only
  rw [execBatches_succeeded, chunksOf_flatten 5 (by omega)]
  simp

theorem handleBulkUnfollow_progress_last (following : List UserWithFollowStatus)
    (rate : RateLimit) (ok : String → Bool)
    (hne : (nonMutualUsers following).length ≠ 0)
    (hq : (nonMutualUsers following).length + 10 ≤ rate.remaining) :
    (handleBulkUnfollow following true rate ok).progressCalls.getLast?
      = some ((handleBulkUnfollow following true rate ok).unfollowedCount,
          (nonMutualUsers following).length) := by
  simp only [handleBulkUnfollow]
  rw [if_neg hne, if_neg (by simp), if_neg (by omega)]
  have h := execBatches_progress ok (nonMutualUsers following).length
    (chunksOf 5 ((nonMutualUsers following).map (fun u => u.login)))
    { requests := [], succeeded := [], count := 0, progressCalls := [] }
    (Or.inr ⟨rfl, rfl⟩)
  rcases h with h | ⟨hp, hc⟩
  · rcases hpc : (execBatches ok (nonMutualUsers following).length
        (chunksOf 5 ((nonMutualUsers following).map (fun u => u.login)))
        { requests := [], succeeded := [], count := 0,
          progressCalls := [] }).progressCalls with _ | ⟨q, qs⟩
    · rw [hpc] at h
      simp at h
    · rw [hpc] at h ⊢
      rw [List.getLast?_cons_cons]
      exact h
  · rw [hp, hc]
    rfl

/-- C1 counterexample: a following record whose isMutualFollow flag is
undefined at call time is not rejected by the bulk-unfollow executor:
JavaScript negation treats undefined as falsy, so the record passes the
eligibility filter and a destructive request is issued for it, refuting
the claim that records with an undefined flag are never attempted. -/
theorem C1_counterexample :
    "a" ∈ (handleBulkUnfollow [{ login := "a", id := 1, isMutualFollow := none }]
        true { limit := 5000, remaining := 5000, reset := 0, used := 0 }
        (fun _ => true)).requests := by
  decide

/-- C1 (amended): for every candidate set submitted to bulk unfollow, every
record whose isMutual flag is true at call time is rejected before
admission and a destructive call is never issued for it; records whose
flag is false or undefined are the candidates, and each of them is
attempted once the operation is admitted.  Logins are assumed distinct, as
they identify users remotely. -/
theorem C1_amended (following : List UserWithFollowStatus) (rate : RateLimit)
    (ok : String → Bool) (u : UserWithFollowStatus) (hu : u ∈ following)
    (hnodup : (following.map (fun v => v.login)).Nodup) :
    (u.isMutualFollow = some true →
      u.login ∉ (handleBulkUnfollow following true rate ok).requests)
    ∧ (truthy u.isMutualFollow = false →
        (nonMutualUsers following).length + 10 ≤ rate.remaining →
        u.login ∈ (handleBulkUnfollow following true rate ok).requests) := by
  constructor
  · intro hmut hmem
    have hsub : (handleBulkUnfollow following true rate ok).requests
        ⊆ (nonMutualUsers following).map (fun v => v.login) := by
      simp only [handleBulkUnfollow]
      by_cases h1 : (nonMutualUsers following).length = 0
      · rw [if_pos h1]
        intro x hx
        cases hx
      · rw [if_neg h1, if_neg (by simp)]
        by_cases h2 : rate.remaining < (nonMutualUsers following).length + 10
        · rw [if_pos h2]
          intro x hx
          cases hx
        · rw [if_neg h2]
          dsimp only
          rw [execBatches_requests, List.nil_append, chunksOf_flatten 5 (by omega)]
          exact fun x hx => hx
    have hm := hsub hmem
    rw [List.mem_map] at hm
    obtain ⟨v, hv, hvl⟩ := hm
    have hvin : v ∈ following := List.mem_of_mem_filter hv
    have hveq : v = u := List.inj_on_of_nodup_map hnodup hvin hu hvl
    subst hveq
    have hpred := List.of_mem_filter hv
    rw [hmut] at hpred
    simp [truthy] at hpred
  · intro hfalse hq
    have hmem : u ∈ nonMutualUsers following :=
      List.mem_filter.mpr ⟨hu, by rw [hfalse]; rfl⟩
    have hne : (nonMutualUsers following).length ≠ 0 := by
      intro h0
      rw [List.length_eq_zero] at h0
      rw [h0] at hmem
      cases hmem
    rw [handleBulkUnfollow_run_requests following rate ok hne hq]
    exact List.mem_map.mpr ⟨u, hmem, rfl⟩

/-- C1 witness: with one mutual and one non-mutual record and ample quota,
no destructive request is issued for the mutual login while the non-mutual
login is attempted. -/
theorem C1_witness :
    ("m" ∉ (handleBulkUnfollow
        [{ login := "m", id := 1, isMutualFollow := some true },
         { login := "n", id := 2, isMutualFollow := some false }]
        true { limit := 5000, remaining := 5000, reset := 0, used := 0 }
        (fun _ => true)).requests)
    ∧ ("n" ∈ (handleBulkUnfollow
        [{ login := "m", id := 1, isMutualFollow := some true },
         { login := "n", id := 2, isMutualFollow := some false }]
        true { limit := 5000, remaining := 5000, reset := 0, used := 0 }
        (fun _ => true)).requests) :=
  ⟨(C1_amended _ _ _ { login := "m", id := 1, isMutualFollow := some true }
      (by decide) (by decide)).1 rfl,
    (C1_amended _ _ _ { login := "n", id := 2, isMutualFollow := some false }
      (by decide) (by decide)).2 rfl (by decide)⟩

/-- C2 counterexample: with a single submitted target whose destructive
call fails, the job completes with no recorded outcome for the target (the
success set stays empty and the failure is only logged), and the final
progress callback of the run reports current = 0 while total = 1, so the
final call does not have current equal to total and the outcome counts do
not sum to the number of targets. -/
theorem C2_counterexample :
    ((handleBulkUnfollow [{ login := "a", id := 1, isMutualFollow := some false }]
        true { limit := 5000, remaining := 5000, reset := 0, used := 0 }
        (fun _ => false)).progressCalls.getLast? = some (0, 1))
    ∧ (0 : Nat) ≠ 1
    ∧ (handleBulkUnfollow [{ login := "a", id := 1, isMutualFollow := some false }]
        true { limit := 5000, remaining := 5000, reset := 0, used := 0 }
        (fun _ => false)).unfollowedUsers.length = 0 := by
  decide

/-- C2 (amended): when an admitted bulk job over n eligible targets
completes, every submitted target was attempted exactly once (the request
list equals the target list), but only successes are recorded: the success
counter equals the number of targets whose destructive call succeeded, a
failed target leaves no recorded outcome beyond a console log, and the
final progress callback of the run carries (succeeded count, n), which
equals (n, n) exactly when every call succeeded. -/
theorem C2_amended (following : List UserWithFollowStatus) (rate : RateLimit)
    (ok : String → Bool)
    (hne : (nonMutualUsers following).length ≠ 0)
    (hq : (nonMutualUsers following).length + 10 ≤ rate.remaining) :
    (handleBulkUnfollow following true rate ok).requests
        = (nonMutualUsers following).map (fun u => u.login)
    ∧ (handleBulkUnfollow following true rate ok).unfollowedCount
        = (((nonMutualUsers following).map (fun u => u.login)).filter ok).length
    ∧ (handleBulkUnfollow following true rate ok).progressCalls.getLast?
        = some ((handleBulkUnfollow following true rate ok).unfollowedCount,
            (nonMutualUsers following).length) :=
  ⟨handleBulkUnfollow_run_requests following rate ok hne hq,
    handleBulkUnfollow_count_eq following rate ok hne hq,
    handleBulkUnfollow_progress_last following rate ok hne hq⟩

/-- C2 witness. -/
theorem C2_witness :
    (handleBulkUnfollow [{ login := "a", id := 1, isMutualFollow := some false }]
        true { limit := 5000, remaining := 5000, reset := 0, used := 0 }
        (fun _ => true)).progressCalls.getLast?
      = some ((handleBulkUnfollow
            [{ login := "a", id := 1, isMutualFollow := some false }]
            true { limit := 5000, remaining := 5000, reset := 0, used := 0 }
            (fun _ => true)).unfollowedCount,
          (nonMutualUsers
            [{ login := "a", id := 1, isMutualFollow := some false }]).length) :=
  (C2_amended _ _ _ (by decide) (by decide)).2.2

/-- C3 counterexample: mutual-follow resolution over 10 candidates with a
remaining quota of 55 is denied by the code (its guard requires remaining
at least candidates + 50), although 55 is not below the cost plus the
claimed reservedMargin of 10, refuting the claim that admission for
quota-sensitive operations is denied exactly when remaining < cost + 10. -/
theorem C3_counterexample :
    ((checkMutualFollows ((List.range 10).map (fun i => { login := "u", id := i }))
        { limit := 5000, remaining := 55, reset := 0, used := 0 }
        (fun _ => FetchOutcome.status 204)).errorMsg.isSome = true)
    ∧ ¬ (55 < 10 + 10) := by
  decide

/-- C3 (amended): admission is a strict threshold check against the
freshly fetched remaining quota, but the reserved margin differs by
operation: mutual-follow resolution is denied exactly when remaining <
candidates + 50, and bulk removal is denied exactly when remaining <
targets + 10; in either case a denial is atomic: no probe, no destructive
request, and no change to the collection. -/
theorem C3_amended (following : List UserWithFollowStatus) (rate : RateLimit)
    (probe : String → FetchOutcome) (ok : String → Bool)
    (hne : following.length ≠ 0)
    (hne2 : (nonMutualUsers following).length ≠ 0) :
    ((checkMutualFollows following rate probe).errorMsg.isSome
        ↔ rate.remaining < following.length + 50)
    ∧ ((checkMutualFollows following rate probe).errorMsg.isSome →
        (checkMutualFollows following rate probe).probed = []
          ∧ (checkMutualFollows following rate probe).finalFollowing = following)
    ∧ ((handleBulkUnfollow following true rate ok).errorMsg.isSome
        ↔ rate.remaining < (nonMutualUsers following).length + 10)
    ∧ ((handleBulkUnfollow following true rate ok).errorMsg.isSome →
        (handleBulkUnfollow following true rate ok).requests = []
          ∧ (handleBulkUnfollow following true rate ok).finalFollowing
              = following) := by
  refine ⟨?_, ?_, ?_, ?_⟩
  · simp only [checkMutualFollows]
    rw [if_neg hne]
    by_cases hq : rate.remaining < following.length + 50
    · rw [if_pos hq]
      simp [hq]
    · rw [if_neg hq]
      simp [hq]
  · simp only [checkMutualFollows]
    rw [if_neg hne]
    by_cases hq : rate.remaining < following.length + 50
    · rw [if_pos hq]
      intro _
      exact ⟨rfl, rfl⟩
    · rw [if_neg hq]
      intro h
      simp at h
  · simp only [handleBulkUnfollow]
    rw [if_neg hne2, if_neg (by simp)]
    by_cases hq : rate.remaining < (nonMutualUsers following).length + 10
    · rw [if_pos hq]
      simp [hq]
    · rw [if_neg hq]
      simp [hq]
  · simp only [handleBulkUnfollow]
    rw [if_neg hne2, if_neg (by simp)]
    by_cases hq : rate.remaining < (nonMutualUsers following).length + 10
    · rw [if_pos hq]
      intro _
      exact ⟨rfl, rfl⟩
    · rw [if_neg hq]
      intro h
      simp at h

/-- C3 witness: one unresolved candidate with remaining quota 40 is denied
for mutual-follow resolution (40 < 1 + 50). -/
theorem C3_witness :
    (checkMutualFollows [{ login := "a", id := 0 }]
        { limit := 5000, remaining := 40, reset := 0, used := 0 }
        (fun _ => FetchOutcome.status 204)).errorMsg.isSome = true :=
  ((C3_amended [{ login := "a", id := 0 }]
      { limit := 5000, remaining := 40, reset := 0, used := 0 }
      (fun _ => FetchOutcome.status 204) (fun _ => true)
      (by decide) (by decide)).1).mpr (by decide)

/-- C4 counterexample: a reciprocity probe that fails with a 500 status, a
failure reason other than NotFound, does not leave isMutual undefined:
checkIfIAmFollowedBy converts it to false and resolution stores some false
on the record, exactly as for a NotFound answer. -/
theorem C4_counterexample :
    ((checkMutualFollows [{ login := "a", id := 1 }]
        { limit := 5000, remaining := 5000, reset := 0, used := 0 }
        (fun _ => FetchOutcome.status 500)).finalFollowing.map
          (fun u => u.isMutualFollow) = [some false])
    ∧ some false ≠ (none : Option Bool) := by
  decide

/-- C4 (amended): a reciprocity probe that fails for any reason, a network
error or any non-204 status including non-NotFound failures such as 500,
yields false; resolution then sets the record's isMutual to some false,
never leaving it undefined; and the workflow treats an undefined isMutual
exactly like false: a record with an undefined flag is included among the
bulk-unfollow candidates rather than excluded. -/
theorem C4_amended :
    (∀ r : FetchOutcome, r ≠ FetchOutcome.status 204 →
      checkIfIAmFollowedBy r = false)
    ∧ (∀ (following : List UserWithFollowStatus) (rate : RateLimit)
        (probe : String → FetchOutcome),
        following.length + 50 ≤ rate.remaining →
        ∀ u ∈ (checkMutualFollows following rate probe).finalFollowing,
          u.isMutualFollow = some (checkIfIAmFollowedBy (probe u.login)))
    ∧ (∀ (following : List UserWithFollowStatus) (u : UserWithFollowStatus),
        u ∈ following → u.isMutualFollow = none →
        u ∈ nonMutualUsers following) := by
  refine ⟨?_, ?_, ?_⟩
  · intro r hr
    cases r with
    | status code =>
      simp only [checkIfIAmFollowedBy]
      refine beq_eq_false_iff_ne.mpr ?_
      intro hc
      exact hr (by rw [hc])
    | networkError => rfl
  · intro following rate probe hq u hu
    by_cases hne : following.length = 0
    · rw [List.length_eq_zero] at hne
      subst hne
      simp [checkMutualFollows] at hu
    · rw [checkMutualFollows_finalFollowing following rate probe hne
        (by omega)] at hu
      rw [List.mem_map] at hu
      obtain ⟨v, hv, rfl⟩ := hu
      rfl
  · intro following u hu hnone
    refine List.mem_filter.mpr ⟨hu, ?_⟩
    rw [hnone]
    rfl

/-- C4 witness: a 500-status probe answer yields false. -/
theorem C4_witness :
    checkIfIAmFollowedBy (FetchOutcome.status 500) = false :=
  C4_amended.1 _ (by decide)

theorem handleBulkUnfollow_final_filter (following : List UserWithFollowStatus)
    (rate : RateLimit) (ok : String → Bool)
    (hnodup : (following.map (fun v => v.login)).Nodup)
    (hne : (nonMutualUsers following).length ≠ 0)
    (hq : (nonMutualUsers following).length + 10 ≤ rate.remaining) :
    (handleBulkUnfollow following true rate ok).finalFollowing
      = following.filter
          (fun u => !((!(truthy u.isMutualFollow)) && ok u.login)) := by
  simp only [handleBulkUnfollow]
  rw [if_neg hne, if_neg (by simp), if_neg (by omega)]
  dsimp only
  refine List.filter_congr ?_
  intro u hu
  have hiff : ((execBatches ok (nonMutualUsers following).length
      (chunksOf 5 ((nonMutualUsers following).map (fun v => v.login)))
      { requests := [], succeeded := [], count := 0,
        progressCalls := [] }).succeeded.contains u.login)
      = ((!(truthy u.isMutualFollow)) && ok u.login) := by
    rw [Bool.eq_iff_iff, List.elem_iff, execBatches_succeeded,
      chunksOf_flatten 5 (by omega)]
    constructor
    · rintro (hin | ⟨hin, hok⟩)
      · cases hin
      · rw [List.mem_map] at hin
        obtain ⟨v, hv, hvl⟩ := hin
        have hvin : v ∈ following := List.mem_of_mem_filter hv
        have hveq : v = u := List.inj_on_of_nodup_map hnodup hvin hu hvl
        subst hveq
        have hpred := List.of_mem_filter hv
        rw [Bool.and_eq_true]
        exact ⟨hpred, hok⟩
    · intro h
      rw [Bool.and_eq_true] at h
      exact Or.inr ⟨List.mem_map.mpr
        ⟨u, List.mem_filter.mpr ⟨hu, h.1⟩, rfl⟩, h.2⟩
  rw [hiff]

theorem handleBulkUnstar_final_filter (repos : List GitHubRepository)
    (rate : RateLimit) (ok : Nat → Bool)
    (_hnodup : (repos.map (fun r => r.id)).Nodup)
    (hne : repos.length ≠ 0)
    (hq : repos.length + 10 ≤ rate.remaining) :
    (handleBulkUnstar repos true rate ok).finalStarred
      = repos.filter (fun r => !(ok r.id)) := by
  simp only [handleBulkUnstar]
  rw [if_neg hne, if_neg (by simp), if_neg (by omega)]
  dsimp only
  refine List.filter_congr ?_
  intro r hr
  have hiff : ((execBatches ok repos.length
      (chunksOf 5 (repos.map (fun s => s.id)))
      { requests := [], succeeded := [], count := 0,
        progressCalls := [] }).succeeded.contains r.id) = ok r.id := by
    rw [Bool.eq_iff_iff, List.elem_iff, execBatches_succeeded,
      chunksOf_flatten 5 (by omega)]
    constructor
    · rintro (hin | ⟨_, hok⟩)
      · cases hin
      · exact hok
    · intro h
      exact Or.inr ⟨List.mem_map.mpr ⟨r, hr, rfl⟩, h⟩
  rw [hiff]

/-- C6: when an admitted bulk removal job completes, reconciliation removes
exactly the targets whose destructive call succeeded from the owning
collection: for bulk unfollow, a following entry is dropped precisely when
it was an eligible target and its DELETE succeeded, so every failed target
and every non-target (mutual follow) remains, in order; for bulk unstar,
where every starred repository is a target, an entry is dropped precisely
when its DELETE succeeded.  Keys (logins, repository ids) are assumed
distinct, as they identify the entities remotely. -/
theorem C6_reconcile (following : List UserWithFollowStatus)
    (repos : List GitHubRepository) (rateU rateR : RateLimit)
    (okU : String → Bool) (okR : Nat → Bool)
    (hnodupU : (following.map (fun v => v.login)).Nodup)
    (hnodupR : (repos.map (fun r => r.id)).Nodup)
    (hneU : (nonMutualUsers following).length ≠ 0)
    (hneR : repos.length ≠ 0)
    (hqU : (nonMutualUsers following).length + 10 ≤ rateU.remaining)
    (hqR : repos.length + 10 ≤ rateR.remaining) :
    (handleBulkUnfollow following true rateU okU).finalFollowing
      = following.filter
          (fun u => !((!(truthy u.isMutualFollow)) && okU u.login))
    ∧ (handleBulkUnstar repos true rateR okR).finalStarred
      = repos.filter (fun r => !(okR r.id)) :=
  ⟨handleBulkUnfollow_final_filter following rateU okU hnodupU hneU hqU,
    handleBulkUnstar_final_filter repos rateR okR hnodupR hneR hqR⟩

/-- C6 witness: of two eligible targets where only the DELETE for login a
succeeds, exactly a is removed; the failed target and the mutual
non-target remain in order. -/
theorem C6_witness :
    (handleBulkUnfollow
        [{ login := "a", id := 1, isMutualFollow := some false },
         { login := "b", id := 2, isMutualFollow := some false },
         { login := "c", id := 3, isMutualFollow := some true }]
        true { limit := 5000, remaining := 5000, reset := 0, used := 0 }
        (fun l => l == "a")).finalFollowing
      = [{ login := "b", id := 2, isMutualFollow := some false },
         { login := "c", id := 3, isMutualFollow := some true }] :=
  ((C6_reconcile
      [{ login := "a", id := 1, isMutualFollow := some false },
       { login := "b", id := 2, isMutualFollow := some false },
       { login := "c", id := 3, isMutualFollow := some true }]
      [{ id := 7, name := "r", ownerLogin := "o" }]
      { limit := 5000, remaining := 5000, reset := 0, used := 0 }
      { limit := 5000, remaining := 5000, reset := 0, used := 0 }
      (fun l => l == "a") (fun _ => true)
      (by decide) (by decide) (by decide) (by decide)
      (by decide) (by decide)).1).trans (by decide)

theorem batchEvents_eq_intersperse {κ : Type} :
    ∀ bs : List (List κ),
      batchEvents bs
        = List.intersperse (ExecEvent.interBatchDelay 200)
            (bs.map ExecEvent.batchCall) := by
  intro bs
  induction bs with
  | nil => rfl
  | cons b bs ih =>
    cases bs with
    | nil => rfl
    | cons b2 rest =>
      simp only [batchEvents, List.map_cons, List.intersperse_cons_cons]
      simp only [List.map_cons] at ih
      rw [ih]

theorem bulkTrace_spec {κ : Type} (targets : List κ) :
    ∃ batches : List (List κ),
      batchEvents (chunksOf 5 targets)
        = List.intersperse (ExecEvent.interBatchDelay 200)
            (batches.map ExecEvent.batchCall)
      ∧ batches.flatten = targets
      ∧ (∀ b ∈ batches, 0 < b.length ∧ b.length ≤ 5)
      ∧ (∀ b ∈ batches.dropLast, b.length = 5) :=
  ⟨chunksOf 5 targets, batchEvents_eq_intersperse _,
    chunksOf_flatten 5 (by omega) targets,
    chunksOf_mem_length 5 (by omega) targets,
    chunksOf_dropLast_length 5 (by omega) targets⟩

/-- C8: the Running phase of a bulk job consumes its targets as a sequence
of batches: the trace is the batch calls separated by a single 200ms
inter-batch delay (so the delay runs after every batch except the last),
the batches concatenate to the full target list in order with every target
in exactly one batch, every batch is nonempty with at most 5 members, and
every batch except possibly the last has exactly 5 members.  Within one
batchCall event, the destructive call is issued for every member before
any event of the next batch, which models that a batch advances only once
every member has produced an outcome. -/
theorem C8_batching :
    ∀ (userTargets : List String) (repoTargets : List Nat),
      (∃ batches : List (List String),
        bulkUnfollowTrace userTargets
          = List.intersperse (ExecEvent.interBatchDelay 200)
              (batches.map ExecEvent.batchCall)
        ∧ batches.flatten = userTargets
        ∧ (∀ b ∈ batches, 0 < b.length ∧ b.length ≤ 5)
        ∧ (∀ b ∈ batches.dropLast, b.length = 5))
      ∧ (∃ batches : List (List Nat),
        bulkUnstarTrace repoTargets
          = List.intersperse (ExecEvent.interBatchDelay 200)
              (batches.map ExecEvent.batchCall)
        ∧ batches.flatten = repoTargets
        ∧ (∀ b ∈ batches, 0 < b.length ∧ b.length ≤ 5)
        ∧ (∀ b ∈ batches.dropLast, b.length = 5)) := by
  intro userTargets repoTargets
  exact ⟨bulkTrace_spec userTargets, bulkTrace_spec repoTargets⟩

end Tracker
